import Mathlib

/-!
Verification of the Treasure Sniffer backend's Market-Comparable Scout and
Deal Decision Engine.  Numeric code is embedded over exact rationals (ℚ);
Python's `round` (banker's rounding, half to even) and `int` (truncation
toward zero) are modelled explicitly.
-/

namespace TreasureSniffer

/-- Python `round(x)`: round half to even, returning an integer. -/
def rhe (q : ℚ) : ℤ :=
  let f : ℤ := ⌊q⌋
  let r : ℚ := q - f
  if r < 1/2 then f
  else if 1/2 < r then f + 1
  else if f % 2 = 0 then f else f + 1

/-- Python `round(x, 2)`: round to two decimal places, half to even. -/
def round2 (q : ℚ) : ℚ := (rhe (q * 100) : ℚ) / 100

/-- Python `int(x)`: truncation toward zero. -/
def pyInt (q : ℚ) : ℤ := if 0 ≤ q then ⌊q⌋ else -⌊-q⌋

/-- The "nice number" rounding used for negotiation figures in `_deal_math`:
`float(int(x // 5) * 5)` when `x >= 20`, else `float(int(x))`. -/
def roundNice (q : ℚ) : ℚ :=
  if 20 ≤ q then ((⌊q / 5⌋ : ℤ) * 5 : ℤ) else (pyInt q : ℤ)

/-- Risk level, one of `low`, `medium`, `high` (data model of the spec). -/
inductive Risk | low | medium | high
deriving DecidableEq, Repr

/-- Confidence level, one of `low`, `medium`, `high`. -/
inductive Conf | low | medium | high
deriving DecidableEq, Repr

/-- Verdict, one of `BUY`, `BUY IF NEGOTIATED LOWER`, `SKIP`. -/
inductive Verdict | buy | buyIfNegotiatedLower | skip
deriving DecidableEq, Repr

/-- The `negotiation` dictionary of `_deal_math` in `src/main.py`. -/
structure NegotiationPlan where
  suggested_offer_usd : Option ℚ
  max_buy_usd : Option ℚ
  roi_if_offer_pct : Option ℤ
  profit_if_offer_usd : Option ℚ
deriving DecidableEq, Repr

/-- The dictionary returned by `_deal_math` in `src/main.py`. -/
structure DealAnalysis where
  asking_price_usd : Option ℚ
  fees_pct : ℤ
  buffer_usd : ℚ
  estimated_profit_usd : Option ℚ
  roi_pct : Option ℤ
  verdict : Verdict
  risk_level : Risk
  negotiation : NegotiationPlan
deriving DecidableEq, Repr

/-- `_buffer_usd` from `src/main.py` lines 88-96: base 15, overridden to 10
for low risk and 30 for high risk, plus 10 when confidence is low. -/
def bufferUsd (risk_level : Risk) (confidence : Conf) : ℚ :=
  let base : ℚ := 15
  let base := if risk_level = Risk.low then 10 else base
  let base := if risk_level = Risk.high then 30 else base
  let base := if confidence = Conf.low then base + 10 else base
  base

/-- `roi_pct is not None and roi_pct < k`. -/
def roiLt (roi : Option ℤ) (k : ℤ) : Bool :=
  match roi with
  | some r => r < k
  | none => false

/-- `roi_pct is not None and roi_pct >= k`. -/
def roiGe (roi : Option ℤ) (k : ℤ) : Bool :=
  match roi with
  | some r => k ≤ r
  | none => false

/-- `_deal_math` from `src/main.py` lines 99-189, embedded over ℚ.
`resale_range` is the (low, high) pair; only `low` is used.  The
`try/except` coercion of the range is outside this embedding: inputs are
already numeric pairs, as in the spec's DealInput. -/
def dealMath (resale_range : ℚ × ℚ) (confidence : Conf) (risk_level : Risk)
    (asking_price_usd : Option ℚ) (fees_pct : ℚ := 13/100)
    (target_roi : ℚ := 7/10) : DealAnalysis :=
  let low := resale_range.1
  let conservative_resale := max 0 low
  let net_resale := conservative_resale * (1 - fees_pct)
  let buffer := bufferUsd risk_level confidence
  match asking_price_usd with
  | none =>
      { asking_price_usd := none
        fees_pct := rhe (fees_pct * 100)
        buffer_usd := round2 buffer
        estimated_profit_usd := none
        roi_pct := none
        verdict := Verdict.buyIfNegotiatedLower
        risk_level := risk_level
        negotiation := ⟨none, none, none, none⟩ }
  | some ap =>
      let est_profit := round2 (net_resale - ap - buffer)
      let roi_pct : Option ℤ :=
        if 0 < ap then some (rhe (est_profit / ap * 100)) else none
      let negotiation : NegotiationPlan :=
        if 0 < net_resale - buffer then
          let suggested := (net_resale - buffer) / (1 + target_roi)
          let suggested := max 0 suggested
          let suggested := roundNice suggested
          let max_buy := (net_resale - buffer) / (1 + 15/100)
          let max_buy := max 0 max_buy
          let max_buy := roundNice max_buy
          let profit_roi : Option ℚ × Option ℤ :=
            if 0 < suggested then
              let p2 := round2 (net_resale - suggested - buffer)
              (some p2, some (rhe (p2 / suggested * 100)))
            else (none, none)
          { suggested_offer_usd := some suggested
            max_buy_usd := some max_buy
            roi_if_offer_pct := profit_roi.2
            profit_if_offer_usd := profit_roi.1 }
        else ⟨none, none, none, none⟩
      let verdict :=
        if est_profit < 5 ∨ roiLt roi_pct 15 = true ∨ risk_level = Risk.high then
          Verdict.skip
        else if roiGe roi_pct 40 = true ∧
            (risk_level = Risk.low ∨ risk_level = Risk.medium) then
          Verdict.buy
        else Verdict.buyIfNegotiatedLower
      { asking_price_usd := some ap
        fees_pct := rhe (fees_pct * 100)
        buffer_usd := round2 buffer
        estimated_profit_usd := some est_profit
        roi_pct := roi_pct
        verdict := verdict
        risk_level := risk_level
        negotiation := negotiation }

/-- The verdict rule as the specification words it: first-match precedence,
SKIP on low profit / low ROI / high risk, then BUY on high ROI with low or
medium risk, else BUY IF NEGOTIATED LOWER. -/
def claimVerdict (est_profit : ℚ) (roi_pct : Option ℤ) (risk_level : Risk) :
    Verdict :=
  if est_profit < 5 ∨ roiLt roi_pct 15 = true ∨ risk_level = Risk.high then
    Verdict.skip
  else if roiGe roi_pct 40 = true ∧
      (risk_level = Risk.low ∨ risk_level = Risk.medium) then
    Verdict.buy
  else Verdict.buyIfNegotiatedLower

/-- Python `str.strip()` on a list of characters: drop leading and trailing
whitespace. -/
def pyStrip (s : List Char) : List Char :=
  List.rdropWhile Char.isWhitespace (List.dropWhile Char.isWhitespace s)

/-- The query filtering at the head of `ebay_scout`
(`src/services/services/ebay_scout.py` line 113):
`[q.strip() for q in queries if q and q.strip()][:3]`. -/
def usedQueries (queries : List (List Char)) : List (List Char) :=
  ((queries.filter
      (fun q => !q.isEmpty && !(pyStrip q).isEmpty)).map pyStrip).take 3

/-- A scraped listing as assembled in `_search_ebay`; only `price_usd`
feeds the aggregation. -/
structure Listing where
  title : List Char
  url : List Char
  raw_price : List Char
  price_usd : Option ℚ
deriving DecidableEq, Repr

/-- One `(query, mode)` result dictionary of `_search_ebay`. -/
structure ModeResult where
  query : List Char
  sold : Bool
  count_text : Option (List Char)
  price_range_usd : Option (ℚ × ℚ)
  examples : List Listing
deriving DecidableEq, Repr

/-- `_min_max` from `src/services/services/ebay_scout.py` lines 25-28:
None on an empty list, else the pair of `round(min, 2)` and
`round(max, 2)`. -/
def minMax (prices : List ℚ) : Option (ℚ × ℚ) :=
  match prices with
  | [] => none
  | p :: ps => some (round2 (ps.foldl min p), round2 (ps.foldl max p))

/-- The sold-price collection loop of `ebay_scout` (lines 119-131): every
non-null `price_usd` of every example of every sold ModeResult, in
order. -/
def collectSoldPrices (sold : List ModeResult) : List ℚ :=
  (sold.map (fun s => s.examples.filterMap (fun e => e.price_usd))).flatten

/-- `overall_sold_price_range_usd` of the ScoutReport: `_min_max` over the
collected sold prices. -/
def overallSoldRange (sold : List ModeResult) : Option (ℚ × ℚ) :=
  minMax (collectSoldPrices sold)

/-- The fraction digits the price regex takes after the integer digits: a
dot followed by a maximal digit run, or nothing. -/
def fracPart (rest : List Char) : List Char :=
  match rest with
  | '.' :: r => List.takeWhile Char.isDigit r
  | _ => []

/-- The first match of the price regex `[0-9]+(\.[0-9]+)?` in a comma-free
string, as the pair (integer digits, fraction digits); none when the
string has no digit.  (In `PRICE_RE` the `[\.,]` comma branch is dead:
the search always runs on a string whose commas were removed.) -/
def firstNum (s : List Char) : Option (List Char × List Char) :=
  match s with
  | [] => none
  | c :: cs =>
    if c.isDigit then
      some (List.takeWhile Char.isDigit (c :: cs),
        fracPart (List.dropWhile Char.isDigit (c :: cs)))
    else firstNum cs

/-- The value of a matched numeric token: integer digits plus fraction
digits over a power of ten (`float(m.group(1))`, exactly). -/
def digitsToNat (ds : List Char) : ℕ :=
  ds.foldl (fun acc c => 10 * acc + (c.toNat - '0'.toNat)) 0

/-- Decimal value of a token with integer part `I` and fraction part
`F`. -/
def numValue (I F : List Char) : ℚ :=
  (digitsToNat I : ℚ) + (digitsToNat F : ℚ) / (10 ^ F.length)

/-- `_parse_price_to_usd` from `src/services/services/ebay_scout.py`
lines 12-22: None on the empty string; otherwise remove commas, strip,
search `PRICE_RE`, and parse the first match as a decimal; None when no
match. -/
def parsePriceToUsd (raw : List Char) : Option ℚ :=
  if raw = [] then none
  else
    (firstNum (pyStrip (raw.filter (fun c => c ≠ ',')))).map
      (fun x => numValue x.1 x.2)

/-- The note `describe` appends when the eBay scout finds no usable sold
range (`src/main.py` line 305). -/
def scoutNote : List Char :=
  ("eBay scout: no close sold comps found; estimate may be "
    ++ "unreliable.").data

/-- The deep-mode market update of `describe` (`src/main.py` lines
297-306): given the vision market range and confidence, the notes, and the
scout's overall sold range, either adopt the truncated scout range and
raise confidence, or keep the range, force confidence low and append the
note.  The adoption guard is the Python truthiness test
`rng[0] or rng[1]`. -/
def deepMarketUpdate (market : ℚ × ℚ) (confidence : Conf)
    (notes : List (List Char)) (rng : Option (ℚ × ℚ)) :
    (ℚ × ℚ) × Conf × List (List Char) :=
  match rng with
  | some (a, b) =>
      if a ≠ 0 ∨ b ≠ 0 then
        (((pyInt a : ℚ), (pyInt b : ℚ)),
          (if confidence ≠ Conf.high then Conf.medium else Conf.high),
          notes)
      else (market, Conf.low, notes ++ [scoutNote])
  | none => (market, Conf.low, notes ++ [scoutNote])

theorem dealMath_some_est (rr : ℚ × ℚ) (conf : Conf) (risk : Risk)
    (a fees t : ℚ) :
    (dealMath rr conf risk (some a) fees t).estimated_profit_usd =
      some (round2 (max 0 rr.1 * (1 - fees) - a - bufferUsd risk conf)) := rfl

theorem dealMath_some_roi (rr : ℚ × ℚ) (conf : Conf) (risk : Risk)
    (a fees t : ℚ) :
    (dealMath rr conf risk (some a) fees t).roi_pct =
      if 0 < a then
        some (rhe (round2 (max 0 rr.1 * (1 - fees) - a - bufferUsd risk conf)
          / a * 100))
      else none := rfl

theorem dealMath_some_verdict (rr : ℚ × ℚ) (conf : Conf) (risk : Risk)
    (a fees t : ℚ) :
    (dealMath rr conf risk (some a) fees t).verdict =
      claimVerdict (round2 (max 0 rr.1 * (1 - fees) - a - bufferUsd risk conf))
        ((dealMath rr conf risk (some a) fees t).roi_pct) risk := rfl

/-- C1: with a non-null asking price, the verdict follows first-match
precedence — SKIP when estimated profit < 5, or ROI < 15, or risk is high;
otherwise BUY when ROI ≥ 40 and risk is low or medium; otherwise
BUY IF NEGOTIATED LOWER.  In particular estimated profit 4.99 with ROI 50
and low risk yields SKIP. -/
theorem C1_verdict_first_match :
    (∀ (rr : ℚ × ℚ) (conf : Conf) (risk : Risk) (a fees t e : ℚ),
        (dealMath rr conf risk (some a) fees t).estimated_profit_usd = some e →
        (dealMath rr conf risk (some a) fees t).verdict =
          claimVerdict e ((dealMath rr conf risk (some a) fees t).roi_pct)
            risk) ∧
    (dealMath (2497/100, 30) Conf.high Risk.low (some (998/100)) 0
        (7/10)).estimated_profit_usd = some (499/100) ∧
    (dealMath (2497/100, 30) Conf.high Risk.low (some (998/100)) 0
        (7/10)).roi_pct = some 50 ∧
    (dealMath (2497/100, 30) Conf.high Risk.low (some (998/100)) 0
        (7/10)).verdict = Verdict.skip := by
  have hb : bufferUsd Risk.low Conf.high = 10 := by simp [bufferUsd]
  refine ⟨?_, ?_, ?_, ?_⟩
  · intro rr conf risk a fees t e he
    rw [dealMath_some_est] at he
    injection he with he
    rw [← he]
    exact dealMath_some_verdict rr conf risk a fees t
  · rw [dealMath_some_est, hb]
    norm_num [round2, rhe]
  · rw [dealMath_some_roi, hb]
    norm_num [round2, rhe]
  · rw [dealMath_some_verdict, hb, dealMath_some_roi, hb]
    norm_num [round2, rhe, claimVerdict, roiLt, roiGe]

/-- Witness for C1: the universal part applied to the concrete SKIP
scenario. -/
theorem C1_verdict_first_match_witness :
    (dealMath (2497/100, 30) Conf.high Risk.low (some (998/100)) 0
        (7/10)).verdict =
      claimVerdict (499/100)
        ((dealMath (2497/100, 30) Conf.high Risk.low (some (998/100)) 0
            (7/10)).roi_pct) Risk.low :=
  C1_verdict_first_match.1 (2497/100, 30) Conf.high Risk.low (998/100) 0
    (7/10) (499/100) C1_verdict_first_match.2.1

/-- C2: a null asking price yields verdict BUY IF NEGOTIATED LOWER with
null estimated profit, null ROI and all four negotiation fields null,
whatever the range, confidence and risk. -/
theorem C2_null_asking_price (rr : ℚ × ℚ) (conf : Conf) (risk : Risk)
    (fees t : ℚ) :
    (dealMath rr conf risk none fees t).verdict =
        Verdict.buyIfNegotiatedLower ∧
    (dealMath rr conf risk none fees t).estimated_profit_usd = none ∧
    (dealMath rr conf risk none fees t).roi_pct = none ∧
    (dealMath rr conf risk none fees t).negotiation.suggested_offer_usd =
        none ∧
    (dealMath rr conf risk none fees t).negotiation.max_buy_usd = none ∧
    (dealMath rr conf risk none fees t).negotiation.profit_if_offer_usd =
        none ∧
    (dealMath rr conf risk none fees t).negotiation.roi_if_offer_pct =
        none :=
  ⟨rfl, rfl, rfl, rfl, rfl, rfl, rfl⟩

/-- C4: the buffer is 10/15/30 for low/medium/high risk, plus an additive
10 when confidence is low; high risk with low confidence gives 40. -/
theorem C4_buffer_additive :
    (∀ (risk : Risk) (conf : Conf),
        bufferUsd risk conf =
          (match risk with
            | Risk.low => 10
            | Risk.medium => 15
            | Risk.high => (30 : ℚ)) +
            (if conf = Conf.low then 10 else 0)) ∧
    bufferUsd Risk.high Conf.low = 40 := by
  constructor
  · intro risk conf
    cases risk <;> cases conf <;> simp [bufferUsd]
  · simp [bufferUsd]
    norm_num

set_option maxRecDepth 8000

theorem dealMath_nego_pos (rr : ℚ × ℚ) (conf : Conf) (risk : Risk)
    (a fees t : ℚ)
    (h : 0 < max 0 rr.1 * (1 - fees) - bufferUsd risk conf) :
    (dealMath rr conf risk (some a) fees t).negotiation.suggested_offer_usd =
      some (roundNice (max 0
        ((max 0 rr.1 * (1 - fees) - bufferUsd risk conf) / (1 + t)))) ∧
    (dealMath rr conf risk (some a) fees t).negotiation.max_buy_usd =
      some (roundNice (max 0
        ((max 0 rr.1 * (1 - fees) - bufferUsd risk conf) / (1 + 15/100)))) := by
  constructor <;> (simp only [dealMath]; rw [if_pos h])

theorem dealMath_nego_none (rr : ℚ × ℚ) (conf : Conf) (risk : Risk)
    (a fees t : ℚ)
    (h : max 0 rr.1 * (1 - fees) - bufferUsd risk conf ≤ 0) :
    (dealMath rr conf risk (some a) fees t).negotiation =
      ⟨none, none, none, none⟩ := by
  simp only [dealMath]
  rw [if_neg (not_lt.mpr h)]

/-- C3 counterexample: at resale_range = (80, 120), confidence medium, risk
low, asking price 40, fees 0.13, the engine computes estimated profit 19.6
(not 14.6) and ROI 49 (not 37): the buffer for low risk is 10, not 15. -/
theorem C3_scenario_counterexample :
    (dealMath (80, 120) Conf.medium Risk.low (some 40) (13/100)
        (7/10)).estimated_profit_usd = some (98/5) ∧
    ((98 : ℚ)/5 ≠ 73/5) ∧
    (dealMath (80, 120) Conf.medium Risk.low (some 40) (13/100)
        (7/10)).roi_pct = some 49 ∧
    ((49 : ℤ) ≠ 37) := by
  have hb : bufferUsd Risk.low Conf.medium = 10 := by simp [bufferUsd]
  refine ⟨?_, by norm_num, ?_, by norm_num⟩
  · rw [dealMath_some_est, hb]
    norm_num [round2, rhe]
  · rw [dealMath_some_roi, hb]
    norm_num [round2, rhe]

/-- C3 (amended): with a non-null asking price the engine computes
estimated profit as the 2-decimal (half-even) rounding of
`max(0, low) * (1 - fees_pct) - asking_price - buffer`, and ROI as the
half-even integer rounding of `estimated_profit / asking_price * 100`, null
when asking_price ≤ 0; the (80,120)/medium/low/40/0.13 scenario yields
estimated profit 19.6 and ROI 49 (the low-risk buffer is 10). -/
theorem C3_profit_roi_formula :
    (∀ (rr : ℚ × ℚ) (conf : Conf) (risk : Risk) (a fees t : ℚ),
        (dealMath rr conf risk (some a) fees t).estimated_profit_usd =
          some (round2
            (max 0 rr.1 * (1 - fees) - a - bufferUsd risk conf)) ∧
        (0 < a →
          (dealMath rr conf risk (some a) fees t).roi_pct =
            some (rhe (round2
              (max 0 rr.1 * (1 - fees) - a - bufferUsd risk conf)
                / a * 100))) ∧
        (a ≤ 0 → (dealMath rr conf risk (some a) fees t).roi_pct = none)) ∧
    (dealMath (80, 120) Conf.medium Risk.low (some 40) (13/100)
        (7/10)).estimated_profit_usd = some (98/5) ∧
    (dealMath (80, 120) Conf.medium Risk.low (some 40) (13/100)
        (7/10)).roi_pct = some 49 := by
  have hb : bufferUsd Risk.low Conf.medium = 10 := by simp [bufferUsd]
  refine ⟨fun rr conf risk a fees t => ⟨dealMath_some_est .., ?_, ?_⟩, ?_, ?_⟩
  · intro ha
    rw [dealMath_some_roi, if_pos ha]
  · intro ha
    rw [dealMath_some_roi, if_neg (not_lt.mpr ha)]
  · rw [dealMath_some_est, hb]
    norm_num [round2, rhe]
  · rw [dealMath_some_roi, hb]
    norm_num [round2, rhe]

/-- Witness for C3: the amended formula applied at the concrete scenario. -/
theorem C3_profit_roi_formula_witness :
    (dealMath (80, 120) Conf.medium Risk.low (some 40) (13/100)
        (7/10)).roi_pct =
      some (rhe (round2
        (max 0 (80 : ℚ) * (1 - 13/100) - 40 - bufferUsd Risk.low Conf.medium)
          / 40 * 100)) :=
  ((C3_profit_roi_formula.1 (80, 120) Conf.medium Risk.low 40 (13/100)
      (7/10)).2.1) (by norm_num)

/-- C5: when `net_resale - buffer > 0`, the suggested offer is
`(net_resale - buffer) / (1 + target_roi)` and the max buy is
`(net_resale - buffer) / 1.15`, each rounded down to a multiple of 5 at or
above 20 and down to an integer below 20 (23.7 becomes 20, 17.9 becomes
17); when `net_resale - buffer ≤ 0` both fields are null. -/
theorem C5_negotiation_plan :
    (∀ (rr : ℚ × ℚ) (conf : Conf) (risk : Risk) (a fees t : ℚ),
        -1 < t →
        0 < max 0 rr.1 * (1 - fees) - bufferUsd risk conf →
        (dealMath rr conf risk (some a) fees t).negotiation.suggested_offer_usd
            = some (roundNice
              ((max 0 rr.1 * (1 - fees) - bufferUsd risk conf) / (1 + t))) ∧
        (dealMath rr conf risk (some a) fees t).negotiation.max_buy_usd
            = some (roundNice
              ((max 0 rr.1 * (1 - fees) - bufferUsd risk conf)
                / (1 + 15/100)))) ∧
    (∀ (rr : ℚ × ℚ) (conf : Conf) (risk : Risk) (a fees t : ℚ),
        max 0 rr.1 * (1 - fees) - bufferUsd risk conf ≤ 0 →
        (dealMath rr conf risk (some a) fees t).negotiation.suggested_offer_usd
            = none ∧
        (dealMath rr conf risk (some a) fees t).negotiation.max_buy_usd
            = none) ∧
    roundNice (237/10) = 20 ∧ roundNice (179/10) = 17 := by
  refine ⟨?_, ?_, ?_, ?_⟩
  · intro rr conf risk a fees t ht hD
    obtain ⟨h1, h2⟩ := dealMath_nego_pos rr conf risk a fees t hD
    constructor
    · rw [h1, max_eq_right (le_of_lt (div_pos hD (by linarith)))]
    · rw [h2, max_eq_right (le_of_lt (div_pos hD (by norm_num)))]
  · intro rr conf risk a fees t h
    rw [dealMath_nego_none rr conf risk a fees t h]
    exact ⟨rfl, rfl⟩
  · norm_num [roundNice]
  · norm_num [roundNice, pyInt]

/-- Witness for C5: both universal parts applied concretely — the positive
branch at the (80,120)/medium/low scenario and the null branch at a (0,0)
range. -/
theorem C5_negotiation_plan_witness :
    ((dealMath (80, 120) Conf.medium Risk.low (some 40) (13/100)
        (7/10)).negotiation.suggested_offer_usd
      = some (roundNice
          ((max 0 (80 : ℚ) * (1 - 13/100) - bufferUsd Risk.low Conf.medium)
            / (1 + 7/10)))) ∧
    ((dealMath (0, 0) Conf.medium Risk.low (some 40) (13/100)
        (7/10)).negotiation.suggested_offer_usd = none) :=
  ⟨(C5_negotiation_plan.1 (80, 120) Conf.medium Risk.low 40 (13/100) (7/10)
      (by norm_num)
      (by simp [bufferUsd]; norm_num)).1,
   (C5_negotiation_plan.2.1 (0, 0) Conf.medium Risk.low 40 (13/100) (7/10)
      (by simp [bufferUsd])).1⟩

theorem roundNice_mono_of_nonneg {x y : ℚ} (hx : 0 ≤ x) (h : x ≤ y) :
    roundNice x ≤ roundNice y := by
  unfold roundNice
  by_cases h20x : 20 ≤ x
  · rw [if_pos h20x, if_pos (le_trans h20x h)]
    have hf : ⌊x / 5⌋ ≤ ⌊y / 5⌋ := Int.floor_le_floor (by linarith)
    have := mul_le_mul_of_nonneg_right hf (by norm_num : (0:ℤ) ≤ 5)
    exact_mod_cast this
  · by_cases h20y : 20 ≤ y
    · rw [if_neg h20x, if_pos h20y]
      have hx4 : (4:ℤ) ≤ ⌊y / 5⌋ := Int.le_floor.mpr (by push_cast; linarith)
      have h1 : (pyInt x : ℚ) ≤ x := by
        rw [pyInt, if_pos hx]
        exact_mod_cast Int.floor_le x
      have h2 : (20:ℚ) ≤ ((⌊y / 5⌋ * 5 : ℤ) : ℚ) := by
        have : (20:ℤ) ≤ ⌊y / 5⌋ * 5 := by linarith
        exact_mod_cast this
      have hxlt : x < 20 := lt_of_not_le h20x
      linarith
    · rw [if_neg h20x, if_neg h20y]
      rw [pyInt, if_pos hx, pyInt, if_pos (le_trans hx h)]
      exact_mod_cast Int.floor_le_floor h

/-- C10: with target_roi ≥ 0.15 and a positive `net_resale - buffer`, the
suggested offer never exceeds the max buy: the rounding rule is monotone
and the suggested-offer divisor 1 + target_roi is at least 1.15. -/
theorem C10_suggested_le_max_buy :
    ∀ (rr : ℚ × ℚ) (conf : Conf) (risk : Risk) (a fees t : ℚ),
      15/100 ≤ t →
      0 < max 0 rr.1 * (1 - fees) - bufferUsd risk conf →
      ∀ s m : ℚ,
        (dealMath rr conf risk (some a) fees
            t).negotiation.suggested_offer_usd = some s →
        (dealMath rr conf risk (some a) fees t).negotiation.max_buy_usd =
            some m →
        s ≤ m := by
  intro rr conf risk a fees t ht hD s m hs hm
  obtain ⟨h1, h2⟩ := dealMath_nego_pos rr conf risk a fees t hD
  rw [h1] at hs
  rw [h2] at hm
  injection hs with hs
  injection hm with hm
  rw [← hs, ← hm]
  apply roundNice_mono_of_nonneg (le_max_left 0 _)
  apply max_le_max le_rfl
  have hpos : (0:ℚ) < 1 + 15/100 := by norm_num
  have hpos2 : (0:ℚ) < 1 + t := by linarith
  rw [div_le_div_iff₀ hpos2 hpos]
  nlinarith [hD.le]

/-- Witness for C10: the comparison at the (80,120)/medium/low scenario
with the default fee and target ROI. -/
theorem C10_suggested_le_max_buy_witness :
    roundNice (max 0
        ((max 0 (80:ℚ) * (1 - 13/100) - bufferUsd Risk.low Conf.medium)
          / (1 + 7/10))) ≤
      roundNice (max 0
        ((max 0 (80:ℚ) * (1 - 13/100) - bufferUsd Risk.low Conf.medium)
          / (1 + 15/100))) :=
  C10_suggested_le_max_buy (80, 120) Conf.medium Risk.low 40 (13/100) (7/10)
    (by norm_num) (by simp [bufferUsd]; norm_num) _ _
    (dealMath_nego_pos (80, 120) Conf.medium Risk.low 40 (13/100) (7/10)
      (by simp [bufferUsd]; norm_num)).1
    (dealMath_nego_pos (80, 120) Conf.medium Risk.low 40 (13/100) (7/10)
      (by simp [bufferUsd]; norm_num)).2

theorem foldl_min_mem (p : ℚ) (ps : List ℚ) : ps.foldl min p ∈ p :: ps := by
  induction ps generalizing p with
  | nil => simp
  | cons b bs ih =>
    have h := ih (min p b)
    simp only [List.foldl_cons]
    rcases List.mem_cons.mp h with h1 | h1
    · rw [h1]
      rcases min_choice p b with h2 | h2 <;> rw [h2] <;> simp
    · exact List.mem_cons_of_mem _ (List.mem_cons_of_mem _ h1)

theorem foldl_min_le (p : ℚ) (ps : List ℚ) :
    ∀ q ∈ p :: ps, ps.foldl min p ≤ q := by
  induction ps generalizing p with
  | nil =>
    intro q hq
    simp at hq
    simp [hq]
  | cons b bs ih =>
    intro r hr
    simp only [List.foldl_cons]
    have hhead : bs.foldl min (min p b) ≤ min p b :=
      ih (min p b) (min p b) (List.mem_cons_self _ _)
    rcases List.mem_cons.mp hr with rfl | hr2
    · exact le_trans hhead (min_le_left _ _)
    · rcases List.mem_cons.mp hr2 with rfl | hr3
      · exact le_trans hhead (min_le_right _ _)
      · exact ih (min p b) r (List.mem_cons_of_mem _ hr3)

theorem foldl_max_mem (p : ℚ) (ps : List ℚ) : ps.foldl max p ∈ p :: ps := by
  induction ps generalizing p with
  | nil => simp
  | cons b bs ih =>
    have h := ih (max p b)
    simp only [List.foldl_cons]
    rcases List.mem_cons.mp h with h1 | h1
    · rw [h1]
      rcases max_choice p b with h2 | h2 <;> rw [h2] <;> simp
    · exact List.mem_cons_of_mem _ (List.mem_cons_of_mem _ h1)

theorem le_foldl_max (p : ℚ) (ps : List ℚ) :
    ∀ q ∈ p :: ps, q ≤ ps.foldl max p := by
  induction ps generalizing p with
  | nil =>
    intro q hq
    simp at hq
    simp [hq]
  | cons b bs ih =>
    intro r hr
    simp only [List.foldl_cons]
    have hhead : max p b ≤ bs.foldl max (max p b) :=
      ih (max p b) (max p b) (List.mem_cons_self _ _)
    rcases List.mem_cons.mp hr with rfl | hr2
    · exact le_trans (le_max_left _ _) hhead
    · rcases List.mem_cons.mp hr2 with rfl | hr3
      · exact le_trans (le_max_right _ _) hhead
      · exact ih (max p b) r (List.mem_cons_of_mem _ hr3)

/-- C7 counterexample: a single sold result with one parsed price 10.006
gives `overall_sold_range = (10.01, 10.01)`, whose upper bound exceeds the
true maximum 10.006 and which is not (min, max) of the collected
prices. -/
theorem C7_rounding_counterexample :
    overallSoldRange
        [⟨['q'], true, none, none, [⟨['t'], ['u'], ['p'], some (5003/500)⟩]⟩]
      = some (1001/100, 1001/100) ∧
    ¬((1001 : ℚ)/100 ≤ 5003/500) := by
  constructor
  · show minMax (collectSoldPrices _) = _
    have h : collectSoldPrices
        [⟨['q'], true, none, none, [⟨['t'], ['u'], ['p'], some (5003/500)⟩]⟩]
        = [5003/500] := rfl
    rw [h]
    show some (round2 (5003/500), round2 (5003/500)) = _
    norm_num [round2, rhe]
  · norm_num

/-- C7 (amended): `overall_sold_range` is null exactly when no sold
ModeResult contributes a non-null price; when prices exist it is the pair
of the true minimum and true maximum of the collected prices, each rounded
to 2 decimals (so the bounds equal the true min/max whenever those have at
most two decimal places). -/
theorem C7_overall_sold_range :
    (∀ sold : List ModeResult,
        overallSoldRange sold = none ↔ collectSoldPrices sold = []) ∧
    (∀ (sold : List ModeResult) (p : ℚ) (ps : List ℚ),
        collectSoldPrices sold = p :: ps →
        ∃ m M : ℚ,
          overallSoldRange sold = some (round2 m, round2 M) ∧
          m ∈ collectSoldPrices sold ∧ M ∈ collectSoldPrices sold ∧
          (∀ q ∈ collectSoldPrices sold, m ≤ q ∧ q ≤ M)) := by
  constructor
  · intro sold
    rw [overallSoldRange]
    cases h : collectSoldPrices sold with
    | nil => simp [minMax]
    | cons p ps => simp [minMax]
  · intro sold p ps h
    refine ⟨ps.foldl min p, ps.foldl max p, ?_, ?_, ?_, ?_⟩
    · rw [overallSoldRange, h, minMax]
    · rw [h]
      exact foldl_min_mem p ps
    · rw [h]
      exact foldl_max_mem p ps
    · intro q hq
      rw [h] at hq
      exact ⟨foldl_min_le p ps q hq, le_foldl_max p ps q hq⟩

/-- Witness for C7: the aggregation over one sold result with prices 12
and 7.5 yields the range (7.5, 12). -/
theorem C7_overall_sold_range_witness :
    ∃ m M : ℚ,
      overallSoldRange
          [⟨['q'], true, none, none,
            [⟨['a'], ['b'], ['c'], some 12⟩,
             ⟨['d'], ['e'], ['f'], some (15/2)⟩]⟩]
        = some (round2 m, round2 M) ∧
      m ∈ collectSoldPrices
          [⟨['q'], true, none, none,
            [⟨['a'], ['b'], ['c'], some 12⟩,
             ⟨['d'], ['e'], ['f'], some (15/2)⟩]⟩] ∧
      M ∈ collectSoldPrices
          [⟨['q'], true, none, none,
            [⟨['a'], ['b'], ['c'], some 12⟩,
             ⟨['d'], ['e'], ['f'], some (15/2)⟩]⟩] ∧
      (∀ q ∈ collectSoldPrices
          [⟨['q'], true, none, none,
            [⟨['a'], ['b'], ['c'], some 12⟩,
             ⟨['d'], ['e'], ['f'], some (15/2)⟩]⟩], m ≤ q ∧ q ≤ M) :=
  C7_overall_sold_range.2
    [⟨['q'], true, none, none,
      [⟨['a'], ['b'], ['c'], some 12⟩,
       ⟨['d'], ['e'], ['f'], some (15/2)⟩]⟩] 12 [15/2] rfl

theorem pyStrip_idem (s : List Char) : pyStrip (pyStrip s) = pyStrip s := by
  rw [pyStrip, pyStrip]
  set y := List.dropWhile Char.isWhitespace s with hy
  have hdw : List.dropWhile Char.isWhitespace y = y :=
    List.dropWhile_idempotent _ _
  have h2 : List.dropWhile Char.isWhitespace
      (List.rdropWhile Char.isWhitespace y) =
      List.rdropWhile Char.isWhitespace y := by
    rcases hz : List.rdropWhile Char.isWhitespace y with _ | ⟨a, t⟩
    · simp
    · have hpref : List.rdropWhile Char.isWhitespace y <+: y :=
        List.rdropWhile_prefix _ _
      rw [hz] at hpref
      obtain ⟨r, hr⟩ := hpref
      have hya : y = a :: (t ++ r) := by
        rw [← hr]
        simp
      have ha' : ¬ (Char.isWhitespace a = true) := by
        intro ha
        have h3 : List.dropWhile Char.isWhitespace (t ++ r) = a :: (t ++ r) := by
          have h5 := hdw
          rw [hya, List.dropWhile_cons] at h5
          simpa [ha, ← hya] using h5
        have h4 :=
          (List.dropWhile_suffix (l := t ++ r) Char.isWhitespace).sublist.length_le
        rw [h3] at h4
        simp at h4
      rw [List.dropWhile_cons]
      simp [ha']
  rw [h2, List.rdropWhile_idempotent]

/-- C8 counterexample: the scout performs no case-insensitive
deduplication — both "A" and "a" survive although they differ only in
case. -/
theorem C8_no_case_dedup :
    usedQueries [['A'], ['a']] = [['A'], ['a']] ∧
    ['A'] ≠ ['a'] ∧
    ['A'].map Char.toLower = ['a'].map Char.toLower := by
  refine ⟨by decide, by decide, by decide⟩

/-- C8 (amended): every query actually used by the scout is the strip of
one of the input queries, is non-empty and carries no leading or trailing
whitespace, and at most 3 survive; no case-insensitive deduplication is
performed. -/
theorem C8_used_queries (qs : List (List Char)) :
    (usedQueries qs).length ≤ 3 ∧
    ∀ q ∈ usedQueries qs,
      q ≠ [] ∧ pyStrip q = q ∧ ∃ q' ∈ qs, q = pyStrip q' := by
  constructor
  · rw [usedQueries, List.length_take]
    exact min_le_left _ _
  · intro q hq
    rw [usedQueries] at hq
    have hq' := List.mem_of_mem_take hq
    obtain ⟨q', hq'mem, rfl⟩ := List.mem_map.mp hq'
    have hf := List.mem_filter.mp hq'mem
    have hpred := hf.2
    simp only [Bool.and_eq_true, Bool.not_eq_true', List.isEmpty_eq_false]
      at hpred
    exact ⟨hpred.2, pyStrip_idem q', q', hf.1, rfl⟩

/-- Witness for C8: the guarantees instantiated at the used query "A". -/
theorem C8_used_queries_witness :
    ['A'] ≠ [] ∧ pyStrip ['A'] = ['A'] ∧
      ∃ q' ∈ [['A'], ['a']], ['A'] = pyStrip q' :=
  (C8_used_queries [['A'], ['a']]).2 ['A'] (by decide)

/-- C9 counterexample: a non-null overall sold range is not always
adopted.  With range (0, 0) the deep-mode caller falls back (keeps the
vision range, forces confidence low, appends the note) even though the
range is non-null; and with range (10.5, 20) the adopted bounds are the
truncations (10, 20), not the range itself. -/
theorem C9_zero_range_counterexample :
    deepMarketUpdate (5, 9) Conf.medium [] (some (0, 0)) =
      ((5, 9), Conf.low, [scoutNote]) ∧
    deepMarketUpdate (5, 9) Conf.medium [] (some (21/2, 20)) =
      ((10, 20), Conf.medium, []) ∧
    ((21 : ℚ)/2 ≠ 10) := by
  refine ⟨?_, ?_, by norm_num⟩
  · rw [deepMarketUpdate]
    norm_num
  · rw [deepMarketUpdate]
    norm_num [pyInt]
    intro h
    exact Conf.noConfusion h

/-- C9 (amended): in deep mode the caller keeps the vision range, forces
confidence to low and appends the note exactly when the overall sold range
is null or both its bounds are zero; any other non-null range is adopted
with both bounds truncated to integers, raising confidence to medium
unless it was high. -/
theorem C9_deep_fallback :
    (∀ (market : ℚ × ℚ) (conf : Conf) (notes : List (List Char)),
        deepMarketUpdate market conf notes none =
          (market, Conf.low, notes ++ [scoutNote])) ∧
    (∀ (market : ℚ × ℚ) (conf : Conf) (notes : List (List Char)),
        deepMarketUpdate market conf notes (some (0, 0)) =
          (market, Conf.low, notes ++ [scoutNote])) ∧
    (∀ (market : ℚ × ℚ) (conf : Conf) (notes : List (List Char)) (a b : ℚ),
        (a ≠ 0 ∨ b ≠ 0) →
        deepMarketUpdate market conf notes (some (a, b)) =
          (((pyInt a : ℚ), (pyInt b : ℚ)),
            (if conf ≠ Conf.high then Conf.medium else Conf.high),
            notes)) := by
  refine ⟨fun market conf notes => rfl, ?_, ?_⟩
  · intro market conf notes
    rw [deepMarketUpdate]
    norm_num
  · intro market conf notes a b hab
    rw [deepMarketUpdate, if_pos hab]

/-- Witness for C9: the adoption branch applied at range (10.5, 20). -/
theorem C9_deep_fallback_witness :
    deepMarketUpdate (5, 9) Conf.medium [] (some (21/2, 20)) =
      (((pyInt (21/2) : ℚ), (pyInt 20 : ℚ)),
        (if Conf.medium ≠ Conf.high then Conf.medium else Conf.high),
        []) :=
  C9_deep_fallback.2.2 (5, 9) Conf.medium [] (21/2) 20 (by norm_num)

theorem firstNum_cons (c : Char) (cs : List Char) :
    firstNum (c :: cs) =
      if c.isDigit then
        some (List.takeWhile Char.isDigit (c :: cs),
          fracPart (List.dropWhile Char.isDigit (c :: cs)))
      else firstNum cs := rfl

theorem fracPart_dot (r : List Char) :
    fracPart ('.' :: r) = List.takeWhile Char.isDigit r := rfl

theorem fracPart_not_dot (p0 : Char) (pt : List Char) (h : ¬ p0 = '.') :
    fracPart (p0 :: pt) = [] := by
  unfold fracPart
  split
  · rename_i r heq
    injection heq with h1 _
    exact absurd h1 h
  · rfl

theorem takeWhile_append_all (p : Char → Bool) (l1 l2 : List Char)
    (h : ∀ c ∈ l1, p c = true) :
    List.takeWhile p (l1 ++ l2) = l1 ++ List.takeWhile p l2 := by
  induction l1 with
  | nil => simp
  | cons a t ih =>
    rw [List.cons_append, List.takeWhile_cons,
      if_pos (h a (List.mem_cons_self _ _)), List.cons_append,
      ih (fun c hc => h c (List.mem_cons_of_mem _ hc))]

theorem dropWhile_append_all (p : Char → Bool) (l1 l2 : List Char)
    (h : ∀ c ∈ l1, p c = true) :
    List.dropWhile p (l1 ++ l2) = List.dropWhile p l2 := by
  induction l1 with
  | nil => simp
  | cons a t ih =>
    rw [List.cons_append, List.dropWhile_cons,
      if_pos (h a (List.mem_cons_self _ _)),
      ih (fun c hc => h c (List.mem_cons_of_mem _ hc))]

theorem takeWhile_head_false (p : Char → Bool) (l : List Char)
    (h : ∀ d, l.head? = some d → p d = false) :
    List.takeWhile p l = [] := by
  cases l with
  | nil => rfl
  | cons a t =>
    rw [List.takeWhile_cons, if_neg]
    simp [h a rfl]

theorem dropWhile_head_false (p : Char → Bool) (l : List Char)
    (h : ∀ d, l.head? = some d → p d = false) :
    List.dropWhile p l = l := by
  cases l with
  | nil => rfl
  | cons a t =>
    rw [List.dropWhile_cons, if_neg]
    simp [h a rfl]

theorem firstNum_append_no_digit (pre s : List Char)
    (h : ∀ c ∈ pre, c.isDigit = false) :
    firstNum (pre ++ s) = firstNum s := by
  induction pre with
  | nil => rfl
  | cons a t ih =>
    rw [List.cons_append, firstNum_cons,
      if_neg (by simp [h a (List.mem_cons_self _ _)]),
      ih (fun c hc => h c (List.mem_cons_of_mem _ hc))]

theorem firstNum_none_of_no_digit (s : List Char)
    (h : ∀ c ∈ s, c.isDigit = false) : firstNum s = none := by
  induction s with
  | nil => rfl
  | cons a t ih =>
    rw [firstNum_cons, if_neg (by simp [h a (List.mem_cons_self _ _)]),
      ih (fun c hc => h c (List.mem_cons_of_mem _ hc))]

theorem mem_of_mem_pyStrip {c : Char} {s : List Char} (h : c ∈ pyStrip s) :
    c ∈ s := by
  rw [pyStrip] at h
  have h1 : c ∈ List.dropWhile Char.isWhitespace s :=
    (List.rdropWhile_prefix _ _).sublist.subset h
  exact (List.dropWhile_suffix _).sublist.subset h1

theorem firstNum_spec (pre I F post : List Char)
    (hpre : ∀ c ∈ pre, c.isDigit = false)
    (hI : I ≠ [])
    (hIdig : ∀ c ∈ I, c.isDigit = true)
    (hFdig : ∀ c ∈ F, c.isDigit = true)
    (hpost : ∀ d, post.head? = some d → d.isDigit = false)
    (hpostdot : F = [] → post.head? = some '.' →
      ∀ d, post.tail.head? = some d → d.isDigit = false) :
    firstNum (pre ++ (I ++ (if F = [] then [] else '.' :: F)) ++ post) =
      some (I, F) := by
  rw [List.append_assoc, firstNum_append_no_digit pre _ hpre]
  by_cases hF : F = []
  · subst hF
    rw [if_pos rfl, List.append_nil]
    cases I with
    | nil => exact absurd rfl hI
    | cons d I' =>
      rw [List.cons_append, firstNum_cons,
        if_pos (hIdig d (List.mem_cons_self _ _)), ← List.cons_append]
      rw [dropWhile_append_all _ _ _ hIdig, dropWhile_head_false _ _ hpost,
        takeWhile_append_all _ _ _ hIdig, takeWhile_head_false _ _ hpost,
        List.append_nil]
      cases post with
      | nil => rfl
      | cons p0 pt =>
        by_cases hp0 : p0 = '.'
        · subst hp0
          have htail : ∀ d, pt.head? = some d → d.isDigit = false :=
            fun d hd => hpostdot rfl rfl d hd
          rw [fracPart_dot, takeWhile_head_false _ _ htail]
        · rw [fracPart_not_dot p0 pt hp0]
  · rw [if_neg hF]
    have hassoc : (I ++ '.' :: F) ++ post = I ++ '.' :: (F ++ post) := by
      simp
    rw [hassoc]
    cases I with
    | nil => exact absurd rfl hI
    | cons d I' =>
      rw [List.cons_append, firstNum_cons,
        if_pos (hIdig d (List.mem_cons_self _ _)), ← List.cons_append]
      have hdot : (('.' : Char).isDigit) = false := by decide
      have hdw2 : List.dropWhile Char.isDigit ('.' :: (F ++ post)) =
          '.' :: (F ++ post) := by
        rw [List.dropWhile_cons, if_neg (by simp [hdot])]
      have htw2 : List.takeWhile Char.isDigit ('.' :: (F ++ post)) = [] := by
        rw [List.takeWhile_cons, if_neg (by simp [hdot])]
      rw [dropWhile_append_all _ _ _ hIdig, hdw2,
        takeWhile_append_all _ _ _ hIdig, htw2, List.append_nil,
        fracPart_dot]
      rw [takeWhile_append_all _ _ _ hFdig,
        takeWhile_head_false _ _ hpost, List.append_nil]

/-- C6: a price string without digits parses to null (and the parser is a
total function); otherwise, after the commas are removed, the result is
the value of the first maximal substring matching `[0-9]+(\.[0-9]+)?` —
here phrased as: whatever decomposition of the processed string into a
digit-free prefix, a maximal numeric token, and a remainder exists, the
parser returns that token's decimal value; "1,299.50" parses to
1299.50. -/
theorem C6_parse_price :
    (∀ raw : List Char, (∀ c ∈ raw, c.isDigit = false) →
        parsePriceToUsd raw = none) ∧
    (∀ raw pre I F post : List Char,
        pyStrip (raw.filter (fun c => c ≠ ',')) =
          pre ++ (I ++ (if F = [] then [] else '.' :: F)) ++ post →
        (∀ c ∈ pre, c.isDigit = false) →
        I ≠ [] → (∀ c ∈ I, c.isDigit = true) →
        (∀ c ∈ F, c.isDigit = true) →
        (∀ d, post.head? = some d → d.isDigit = false) →
        (F = [] → post.head? = some '.' →
          ∀ d, post.tail.head? = some d → d.isDigit = false) →
        parsePriceToUsd raw = some (numValue I F)) ∧
    parsePriceToUsd ['1', ',', '2', '9', '9', '.', '5', '0'] =
      some (1299 + 50/100) := by
  refine ⟨?_, ?_, ?_⟩
  · intro raw h
    rw [parsePriceToUsd]
    by_cases hraw : raw = []
    · rw [if_pos hraw]
    · rw [if_neg hraw]
      have hnod : ∀ c ∈ pyStrip (raw.filter (fun c => c ≠ ',')),
          c.isDigit = false := by
        intro c hc
        exact h c (List.mem_filter.mp (mem_of_mem_pyStrip hc)).1
      rw [firstNum_none_of_no_digit _ hnod]
      rfl
  · intro raw pre I F post hs hpre hI hIdig hFdig hpost hpostdot
    rw [parsePriceToUsd]
    by_cases hraw : raw = []
    · exfalso
      subst hraw
      have : pyStrip (List.filter (fun c => c ≠ ',') []) = [] := rfl
      rw [this] at hs
      have h1 := List.append_eq_nil.mp hs.symm
      have h2 := List.append_eq_nil.mp h1.1
      exact hI (List.append_eq_nil.mp h2.2).1
    · rw [if_neg hraw, hs,
        firstNum_spec pre I F post hpre hI hIdig hFdig hpost hpostdot]
      rfl
  · have h1 : firstNum (pyStrip
        ((['1', ',', '2', '9', '9', '.', '5', '0']).filter
          (fun c => c ≠ ','))) = some (['1', '2', '9', '9'], ['5', '0']) :=
      by decide
    rw [parsePriceToUsd, if_neg (by decide), h1]
    have h2 : digitsToNat ['1', '2', '9', '9'] = 1299 := by decide
    have h3 : digitsToNat ['5', '0'] = 50 := by decide
    show some (numValue ['1', '2', '9', '9'] ['5', '0']) = _
    rw [numValue, h2, h3]
    norm_num

/-- Witness for C6: the no-digit case at "abc" and the decomposition case
at "1,299.50". -/
theorem C6_parse_price_witness :
    parsePriceToUsd ['a', 'b', 'c'] = none ∧
    parsePriceToUsd ['1', ',', '2', '9', '9', '.', '5', '0'] =
      some (numValue ['1', '2', '9', '9'] ['5', '0']) :=
  ⟨C6_parse_price.1 ['a', 'b', 'c'] (by decide),
   C6_parse_price.2.1 ['1', ',', '2', '9', '9', '.', '5', '0'] []
     ['1', '2', '9', '9'] ['5', '0'] [] (by decide) (by decide) (by decide)
     (by decide) (by decide) (by decide) (by decide)⟩
